import Mathlib

/-!
# Verification of `iomanip_centered.h`

A shallow embedding of the single-header C++ library `iomanip_centered.h`,
which provides a `centered(value)` stream manipulator: the value is converted
to text eagerly (`centered` overloads, source lines 64-125) and the padding is
computed when the resulting `center_helper` is written to a `basic_ostream`
(`operator<<`, source lines 127-140).

Modelling conventions:
* A character is a `Char`, a `std::string` is a `List Char`.
* `std::streamsize` (a signed 64-bit integer) is embedded as `Int`; the
  `static_cast<size_t>` on line 130 is `toSize`, reduction modulo `2 ^ 64`.
* The relevant `std::basic_ostream` state is `OStream`: the characters written
  so far, the pending field width, the fill character, and whether the
  `std::ios_base::left` adjustment flag is set (the default stream state has
  it clear, which makes padded insertions *right*-justified).
* Inserting a string into a stream (`s << str`) pads with
  `max(width - length, 0)` fill characters (before the text unless
  left-adjusted) and then resets the pending width to `0`, per the C++
  `basic_ostream` / `basic_string` insertion semantics.
-/

/-- The observable `std::basic_ostream` state used by the library: characters
already written, pending field width (`std::streamsize`, signed), fill
character, and whether `std::ios_base::left` adjustment is in effect. -/
structure OStream where
  out : List Char
  width : Int
  fill : Char
  adjustLeft : Bool
deriving DecidableEq, Repr

/-- `static_cast<size_t>(w)` on a `std::streamsize` (source line 130):
reduction of the signed value modulo `2 ^ 64`. -/
def toSize (w : Int) : Nat := (w % (2 : Int) ^ 64).toNat

/-- Conversion of an unsigned 64-bit value back to `std::streamsize`
(the implicit conversion on source line 131 when the unsigned sum
`w + c.str_.length()` is stored into a `std::streamsize`):
two's-complement reinterpretation. -/
def toStreamsize (u : Nat) : Int :=
  if u < 2 ^ 63 then (u : Int) else (u : Int) - 2 ^ 64

/-- Number of fill characters a string insertion emits: `width - length`
when positive, else none. -/
def padCount (w : Int) (n : Nat) : Nat := (w - (n : Int)).toNat

/-- `s << str` for a string (also covers the `s << ""` insertion of a
`const char*` on source line 135): emit padding and the text (padding after
the text when left-adjusted, before it otherwise) and reset the pending
width to `0`. -/
def insertStr (s : OStream) (str : List Char) : OStream :=
  let pad := List.replicate (padCount s.width str.length) s.fill
  { s with
    out := s.out ++ (if s.adjustLeft then str ++ pad else pad ++ str),
    width := 0 }

/-- The `center_helper` class (source lines 54-61): it stores only the
already-converted text `str_`. -/
structure center_helper where
  str_ : List Char
deriving DecidableEq, Repr

/-- Repeated division by ten with an explicit fuel argument (the structural
recursion pattern of the standard digit extractor; the fuel is immaterial as
soon as it is at least the number being rendered). -/
def natToRevDigitsAux : Nat → Nat → List Char
  | _, 0 => []
  | 0, _ + 1 => []
  | f + 1, n + 1 => Nat.digitChar ((n + 1) % 10) :: natToRevDigitsAux f ((n + 1) / 10)

/-- Decimal digits of a natural number, least significant first (empty for
`0`). Together with `natToString` this embeds the digit production of the
platform's `std::to_string` for integral values, which the C++ standard pins
down as the decimal representation (`printf`-style `%d` formatting). -/
def natToRevDigits (n : Nat) : List Char := natToRevDigitsAux n n

/-- Decimal text of a natural number, most significant digit first. -/
def natToString (n : Nat) : List Char :=
  if n = 0 then ['0'] else (natToRevDigits n).reverse

/-- `std::to_string` for the integral overloads (source lines 79-117): the
decimal representation of the value, with a leading minus sign when
negative. All ten integral `centered` overloads funnel into this one
conversion because `std::to_string` always produces the plain decimal text
of the argument's value. -/
def to_string (i : Int) : List Char :=
  if i < 0 then '-' :: natToString i.natAbs else natToString i.toNat

/-- Round a rational to the nearest integer, ties to even — the default
IEEE rounding applied by the platform's `printf` engine when `%f` shortens
the (exactly representable, hence rational) floating-point value. -/
def rne (q : ℚ) : Int :=
  if q - ⌊q⌋ < 1 / 2 then ⌊q⌋
  else if 1 / 2 < q - ⌊q⌋ then ⌊q⌋ + 1
  else if ⌊q⌋ % 2 = 0 then ⌊q⌋ else ⌊q⌋ + 1

/-- Modelled from the spec: `std::to_string` for `float` / `double` (the
platform's numeric-to-text routine, not part of `src/`), which the C++
standard defines as `printf`-style `%f` formatting: fixed notation with
exactly six fractional digits. The argument is the exact rational value of
the floating-point number (every finite IEEE value is rational); the sign
is taken from the value, the magnitude is rounded at the sixth fractional
digit. -/
def to_string_fp (q : ℚ) : List Char :=
  let m : Int := rne (|q| * 1000000)
  let ip := natToString (m / 1000000).toNat
  let frDigits := natToString (m % 1000000).toNat
  (if q < 0 then ['-'] else []) ++ ip
    ++ '.' :: (List.replicate (6 - frDigits.length) '0' ++ frDigits)

/-- `centered(std::basic_string)` / `centered(const std::string&)`
(source lines 63-71): the text passes through unchanged. -/
def centered_string (str : List Char) : center_helper := ⟨str⟩

/-- `centered(char)` (source lines 74-76): `std::string(1, character)`. -/
def centered_char (character : Char) : center_helper := ⟨[character]⟩

/-- `centered(signed char)` (source lines 79-81). -/
def centered_schar (intval : Int) : center_helper := ⟨to_string intval⟩

/-- `centered(unsigned char)` (source lines 83-85). -/
def centered_uchar (intval : Int) : center_helper := ⟨to_string intval⟩

/-- `centered(short int)` (source lines 87-89). -/
def centered_short (intval : Int) : center_helper := ⟨to_string intval⟩

/-- `centered(unsigned short int)` (source lines 91-93). -/
def centered_ushort (intval : Int) : center_helper := ⟨to_string intval⟩

/-- `centered(int)` (source lines 95-97). -/
def centered_int (intval : Int) : center_helper := ⟨to_string intval⟩

/-- `centered(unsigned int)` (source lines 99-101). -/
def centered_uint (intval : Int) : center_helper := ⟨to_string intval⟩

/-- `centered(long int)` (source lines 103-105). -/
def centered_long (intval : Int) : center_helper := ⟨to_string intval⟩

/-- `centered(unsigned long int)` (source lines 107-109). -/
def centered_ulong (intval : Int) : center_helper := ⟨to_string intval⟩

/-- `centered(long long int)` (source lines 111-113). -/
def centered_llong (intval : Int) : center_helper := ⟨to_string intval⟩

/-- `centered(unsigned long long int)` (source lines 115-117). -/
def centered_ullong (intval : Int) : center_helper := ⟨to_string intval⟩

/-- `centered(float)` (source lines 119-121). -/
def centered_float (floatval : ℚ) : center_helper := ⟨to_string_fp floatval⟩

/-- `centered(double)` (source lines 123-125). -/
def centered_double (floatval : ℚ) : center_helper := ⟨to_string_fp floatval⟩

/-- The spec's "supported value" sum: one case per `centered` overload.
Integral cases carry the mathematical value of the C++ integer (each C++
integral type's values are a subset of `Int`); floating cases carry the
exact rational value of the finite IEEE number. -/
inductive Value where
  | vstring (s : List Char)
  | vchar (c : Char)
  | vschar (i : Int)
  | vuchar (i : Int)
  | vshort (i : Int)
  | vushort (i : Int)
  | vint (i : Int)
  | vuint (i : Int)
  | vlong (i : Int)
  | vulong (i : Int)
  | vllong (i : Int)
  | vullong (i : Int)
  | vfloat (q : ℚ)
  | vdouble (q : ℚ)
deriving DecidableEq

/-- The spec's `wrap(value)` operation: C++ overload resolution dispatching
a supported value to its `centered` overload. -/
def wrap : Value → center_helper
  | .vstring s => centered_string s
  | .vchar c => centered_char c
  | .vschar i => centered_schar i
  | .vuchar i => centered_uchar i
  | .vshort i => centered_short i
  | .vushort i => centered_ushort i
  | .vint i => centered_int i
  | .vuint i => centered_uint i
  | .vlong i => centered_long i
  | .vulong i => centered_ulong i
  | .vllong i => centered_llong i
  | .vullong i => centered_ullong i
  | .vfloat q => centered_float q
  | .vdouble q => centered_double q

/-- Canonical decimal text of a natural number as the spec words it,
written independently of the executable renderer: the base-10 digit
expansion (`Nat.digits`), most significant digit first. -/
def specDecimalNat (n : Nat) : List Char :=
  if n = 0 then ['0'] else ((Nat.digits 10 n).map Nat.digitChar).reverse

/-- Canonical decimal text of an integer per the spec's words. -/
def specDecimalInt (i : Int) : List Char :=
  if i < 0 then '-' :: specDecimalNat i.natAbs else specDecimalNat i.toNat

/-- The conversion rule as the spec states it: text and character values
pass through as-is (a lone character becomes a one-unit string); integral
values become their canonical decimal text; floating values become whatever
the platform's numeric-to-text routine produces. -/
def specText : Value → List Char
  | .vstring s => s
  | .vchar c => [c]
  | .vschar i => specDecimalInt i
  | .vuchar i => specDecimalInt i
  | .vshort i => specDecimalInt i
  | .vushort i => specDecimalInt i
  | .vint i => specDecimalInt i
  | .vuint i => specDecimalInt i
  | .vlong i => specDecimalInt i
  | .vulong i => specDecimalInt i
  | .vllong i => specDecimalInt i
  | .vullong i => specDecimalInt i
  | .vfloat q => to_string_fp q
  | .vdouble q => to_string_fp q

/-- `std::streamsize left = (w + c.str_.length()) / 2` (source line 131).
The C++ addition converts the signed `w` to `size_t`, so the whole
computation happens modulo `2 ^ 64` in unsigned arithmetic and the quotient
is then converted back to `std::streamsize`. -/
def leftOf (w : Int) (n : Nat) : Int :=
  toStreamsize ((toSize w + n) % 2 ^ 64 / 2)

/-- `operator<<(std::basic_ostream&, const center_helper&)`
(source lines 127-140), the spec's `consume(request, fieldWidth)`:

* read `w = s.width()`;
* if `static_cast<size_t>(w) > c.str_.length()`: set the width to
  `left = (w + c.str_.length()) / 2`, insert the text (right-justified in
  that field for a default-formatted stream), then set the width to
  `w - left` and insert `""` (emitting the remaining fill characters);
* otherwise insert the text with the pending width unchanged (since
  `w <= n` no padding results).

Total function: there is no failure path for any width/length pair. -/
def consume (s : OStream) (c : center_helper) : OStream :=
  let w := s.width
  if c.str_.length < toSize w then
    let left := leftOf w c.str_.length
    let s1 := insertStr { s with width := left } c.str_
    insertStr { s1 with width := w - left } []
  else
    insertStr s c.str_

/-- The characters a consumption appends, as a function of the request text
and the stream's width, fill and adjustment state only (mirrors `consume`
branch by branch). -/
def emitOf (c : center_helper) (w : Int) (fill : Char) (adjL : Bool) : List Char :=
  if c.str_.length < toSize w then
    let left := leftOf w c.str_.length
    let p1 := List.replicate (padCount left c.str_.length) fill
    let p2 := List.replicate (padCount (w - left) 0) fill
    (if adjL then c.str_ ++ p1 else p1 ++ c.str_) ++ (if adjL then [] ++ p2 else p2 ++ [])
  else
    let p := List.replicate (padCount w c.str_.length) fill
    if adjL then c.str_ ++ p else p ++ c.str_

theorem consume_out_eq (s : OStream) (c : center_helper) :
    (consume s c).out = s.out ++ emitOf c s.width s.fill s.adjustLeft := by
  by_cases h : c.str_.length < toSize s.width <;>
    cases ha : s.adjustLeft <;>
      simp [consume, emitOf, insertStr, h, ha, List.append_assoc]

theorem consume_width (s : OStream) (c : center_helper) :
    (consume s c).width = 0 := by
  by_cases h : c.str_.length < toSize s.width <;> simp [consume, insertStr, h]

theorem consume_fill (s : OStream) (c : center_helper) :
    (consume s c).fill = s.fill := by
  by_cases h : c.str_.length < toSize s.width <;> simp [consume, insertStr, h]

theorem consume_adjustLeft (s : OStream) (c : center_helper) :
    (consume s c).adjustLeft = s.adjustLeft := by
  by_cases h : c.str_.length < toSize s.width <;> simp [consume, insertStr, h]

theorem natToRevDigitsAux_eq_digits (n : Nat) :
    ∀ f, n ≤ f → natToRevDigitsAux f n = (Nat.digits 10 n).map Nat.digitChar := by
  induction n using Nat.strong_induction_on with
  | _ n ih =>
    intro f hf
    match n, f with
    | 0, f => cases f <;> simp [natToRevDigitsAux]
    | m + 1, 0 => omega
    | m + 1, f + 1 =>
      rw [natToRevDigitsAux, Nat.digits_def' (by norm_num : (1 : Nat) < 10) (Nat.succ_pos m),
        List.map_cons,
        ih ((m + 1) / 10) (Nat.div_lt_self (Nat.succ_pos m) (by norm_num)) f (by omega)]

theorem natToRevDigits_eq_digits (n : Nat) :
    natToRevDigits n = (Nat.digits 10 n).map Nat.digitChar :=
  natToRevDigitsAux_eq_digits n n le_rfl

theorem natToString_eq_specDecimalNat (n : Nat) : natToString n = specDecimalNat n := by
  unfold natToString specDecimalNat
  rw [natToRevDigits_eq_digits]

theorem to_string_eq_specDecimalInt (i : Int) : to_string i = specDecimalInt i := by
  unfold to_string specDecimalInt
  rw [natToString_eq_specDecimalNat, natToString_eq_specDecimalNat]

theorem toSize_ofNat (w : Nat) (h : w < 2 ^ 64) : toSize (w : Int) = w := by
  unfold toSize
  omega

theorem leftOf_ofNat (w n : Nat) (h63 : w < 2 ^ 63) (hn : n < w) :
    leftOf (w : Int) n = ((w + n) / 2 : Nat) := by
  rw [leftOf, toSize_ofNat w (by omega), toStreamsize,
    Nat.mod_eq_of_lt (show w + n < 2 ^ 64 by omega), if_pos (by omega)]

theorem emitOf_padded (c : center_helper) (w : Nat) (fill : Char)
    (h63 : w < 2 ^ 63) (hn : c.str_.length < w) :
    emitOf c (w : Int) fill false =
      List.replicate ((w - c.str_.length) / 2) fill ++ c.str_
        ++ List.replicate ((w - c.str_.length) - (w - c.str_.length) / 2) fill := by
  unfold emitOf
  rw [toSize_ofNat w (by omega), if_pos hn, leftOf_ofNat w c.str_.length h63 hn]
  have h1 : padCount (((w : Int) + (c.str_.length : Int)) / 2) c.str_.length
      = (w - c.str_.length) / 2 := by
    unfold padCount; omega
  have h2 : padCount ((w : Int) - ((w : Int) + (c.str_.length : Int)) / 2) 0
      = (w - c.str_.length) - (w - c.str_.length) / 2 := by
    unfold padCount; omega
  simp [h1, h2, List.append_assoc]

theorem emitOf_small (c : center_helper) (w : Nat) (fill : Char) (adjL : Bool)
    (h63 : w < 2 ^ 63) (hn : w ≤ c.str_.length) :
    emitOf c (w : Int) fill adjL = c.str_ := by
  unfold emitOf
  rw [toSize_ofNat w (by omega), if_neg (by omega)]
  have h0 : padCount (w : Int) c.str_.length = 0 := by unfold padCount; omega
  rw [h0]
  cases adjL <;> simp

theorem emitOf_length (c : center_helper) (w : Nat) (fill : Char) (adjL : Bool)
    (h63 : w < 2 ^ 63) :
    (emitOf c (w : Int) fill adjL).length = max w c.str_.length := by
  rcases le_or_lt w c.str_.length with hle | hlt
  · rw [emitOf_small c w fill adjL h63 hle]
    omega
  · unfold emitOf
    rw [toSize_ofNat w (by omega), if_pos hlt, leftOf_ofNat w c.str_.length h63 hlt]
    have h1 : padCount (((w : Int) + (c.str_.length : Int)) / 2) c.str_.length
        = (w - c.str_.length) / 2 := by
      unfold padCount; omega
    have h2 : padCount ((w : Int) - ((w : Int) + (c.str_.length : Int)) / 2) 0
        = (w - c.str_.length) - (w - c.str_.length) / 2 := by
      unfold padCount; omega
    cases adjL <;> simp [h1, h2] <;> omega

/-- C1 (counterexample): the claim asserts left-bias padding — at width 10,
`wrap('w')` would give left pad 5 and right pad 4, i.e. `"     w    "`.
The code computes `left = (w + n) / 2` and right-justifies the text in a
field of that size, which puts `floor((w - n) / 2)` fill units on the left
and `ceil((w - n) / 2)` on the right: the output is `"    w     "`
(4 spaces left, 5 right), not `"     w    "`. -/
theorem c1_left_bias_counterexample :
    (consume ⟨[], 10, ' ', false⟩ (wrap (Value.vchar 'w'))).out = "    w     ".data
      ∧ "    w     ".data ≠ "     w    ".data := by
  constructor
  · decide
  · decide

/-- C1 (amended): for every supported value `v` and every field width
strictly greater than `n = length(text(v))`, consuming `wrap(v)` on a
default-formatted stream emits `floor((w - n) / 2)` fill units on the left
and `ceil((w - n) / 2) = (w - n) - floor((w - n) / 2)` on the right — the
*right* side receives the extra fill unit when `(w - n)` is odd, and the
padding is equal on both sides when it is even; in particular `wrap('w')`
at width 10 produces `"    w     "`. -/
theorem c1_centering_right_bias (v : Value) (s : OStream) (w : Nat)
    (hw : s.width = (w : Int)) (h63 : w < 2 ^ 63)
    (hn : (wrap v).str_.length < w) (hadj : s.adjustLeft = false) :
    (consume s (wrap v)).out =
      s.out ++ List.replicate ((w - (wrap v).str_.length) / 2) s.fill
        ++ (wrap v).str_
        ++ List.replicate
            ((w - (wrap v).str_.length) - (w - (wrap v).str_.length) / 2) s.fill := by
  rw [consume_out_eq, hw, hadj, emitOf_padded (wrap v) w s.fill h63 hn]
  simp [List.append_assoc]

theorem c1_centering_right_bias_witness :
    ((⟨[], 10, ' ', false⟩ : OStream).width = ((10 : Nat) : Int)
      ∧ (10 : Nat) < 2 ^ 63
      ∧ (wrap (Value.vchar 'w')).str_.length < 10
      ∧ (⟨[], 10, ' ', false⟩ : OStream).adjustLeft = false)
    ∧ (consume ⟨[], 10, ' ', false⟩ (wrap (Value.vchar 'w'))).out = "    w     ".data := by
  refine ⟨⟨by decide, by decide, by decide, rfl⟩, ?_⟩
  rw [c1_centering_right_bias (Value.vchar 'w') ⟨[], 10, ' ', false⟩ 10
    (by decide) (by decide) (by decide) rfl]
  decide

/-- C2: for every supported value and every representable field width
`w ≥ 0`, the number of characters a consumption appends is exactly
`max w (length (text v))` — shorter texts are padded out to the field
width, longer texts overflow it without truncation. -/
theorem c2_output_length (v : Value) (s : OStream) (w : Nat)
    (hw : s.width = (w : Int)) (h63 : w < 2 ^ 63) :
    (consume s (wrap v)).out.length = s.out.length + max w (wrap v).str_.length := by
  rw [consume_out_eq, hw, List.length_append, emitOf_length (wrap v) w s.fill s.adjustLeft h63]

theorem c2_output_length_witness :
    ((⟨[], 10, ' ', false⟩ : OStream).width = ((10 : Nat) : Int)
      ∧ (10 : Nat) < 2 ^ 63)
    ∧ (consume ⟨[], 10, ' ', false⟩ (wrap (Value.vint (-10)))).out.length
        = ([] : List Char).length + max 10 (wrap (Value.vint (-10))).str_.length := by
  refine ⟨⟨by decide, by decide⟩, ?_⟩
  exact c2_output_length (Value.vint (-10)) ⟨[], 10, ' ', false⟩ 10 (by decide) (by decide)

/-- C3: whenever the requested field width is at most the text length
(including width 0), consumption writes the text verbatim: no padding is
added and nothing is truncated, e.g. `wrap("abc")` at width 2 yields
`"abc"` unchanged. -/
theorem c3_verbatim_when_narrow (v : Value) (s : OStream) (w : Nat)
    (hw : s.width = (w : Int)) (h63 : w < 2 ^ 63)
    (hn : w ≤ (wrap v).str_.length) :
    (consume s (wrap v)).out = s.out ++ (wrap v).str_ := by
  rw [consume_out_eq, hw, emitOf_small (wrap v) w s.fill s.adjustLeft h63 hn]

theorem c3_verbatim_when_narrow_witness :
    ((⟨[], 2, ' ', false⟩ : OStream).width = ((2 : Nat) : Int)
      ∧ (2 : Nat) < 2 ^ 63
      ∧ (2 : Nat) ≤ (wrap (Value.vstring "abc".data)).str_.length)
    ∧ (consume ⟨[], 2, ' ', false⟩ (wrap (Value.vstring "abc".data))).out
        = ([] : List Char) ++ (wrap (Value.vstring "abc".data)).str_ := by
  refine ⟨⟨by decide, by decide, by decide⟩, ?_⟩
  exact c3_verbatim_when_narrow (Value.vstring "abc".data) ⟨[], 2, ' ', false⟩ 2
    (by decide) (by decide) (by decide)

/-- C4: the value-to-text conversion performed at wrap time matches the
spec's conversion rule — strings pass through unchanged, a single character
becomes the one-character string, every integral variant becomes its
canonical decimal text (the digit expansion of `Nat.digits`, with a leading
minus sign for negatives, exactly what `std::to_string` produces), and the
floating variants go through the platform's standard numeric-to-text
conversion with its default fixed six-digit formatting. -/
theorem c4_conversion_matches_spec (v : Value) : (wrap v).str_ = specText v := by
  cases v <;>
    simp [wrap, specText, centered_string, centered_char, centered_schar, centered_uchar,
      centered_short, centered_ushort, centered_int, centered_uint, centered_long,
      centered_ulong, centered_llong, centered_ullong, centered_float, centered_double,
      to_string_eq_specDecimalInt]

/-- C5: after a `center_helper` is consumed — whichever branch ran — the
stream's pending width is `0`, so the one-shot width directive applied to
this write only: any later plain insertion on the same stream appends its
text with no padding at all. -/
theorem c5_width_reset (s : OStream) (c : center_helper) :
    (consume s c).width = 0
      ∧ ∀ str : List Char, (insertStr (consume s c) str).out = (consume s c).out ++ str := by
  refine ⟨consume_width s c, ?_⟩
  intro str
  have hz := consume_width s c
  have hp : padCount (consume s c).width str.length = 0 := by
    rw [hz]; unfold padCount; omega
  unfold insertStr
  rw [hp]
  cases h : (consume s c).adjustLeft <;> simp

/-- C6: writing a `center_helper` to a stream whose pending width is 0
(no width set) is not an error: the guard `w <= n` sends it to the
verbatim branch and the unpadded text is emitted. `consume` is a total
function — there is no failure path for any width/length pair. -/
theorem c6_no_width_unpadded (c : center_helper) (s : OStream) (hw : s.width = 0) :
    (consume s c).out = s.out ++ c.str_ := by
  have h := emitOf_small c 0 s.fill s.adjustLeft (by norm_num) (Nat.zero_le _)
  rw [consume_out_eq, hw]
  simpa using h

theorem c6_no_width_unpadded_witness :
    ((⟨[], 0, ' ', false⟩ : OStream).width = 0)
    ∧ (consume ⟨[], 0, ' ', false⟩ ⟨"hi".data⟩).out = ([] : List Char) ++ "hi".data := by
  exact ⟨rfl, c6_no_width_unpadded ⟨"hi".data⟩ ⟨[], 0, ' ', false⟩ rfl⟩

/-- C7: the even-leftover concrete scenario — `wrap("Column A")` (8
characters) consumed at field width 10 on a default-formatted stream
produces exactly `" Column A "`: one fill unit each side, total length
10. -/
theorem c7_column_a_width10 :
    (consume ⟨[], 10, ' ', false⟩ (wrap (Value.vstring "Column A".data))).out
      = " Column A ".data := by
  decide

/-- C8: the pipeline is deterministic and the request is immutable (in
this pure embedding `wrap v` is a fixed value, so immutability is
definitional): the characters a consumption appends depend only on the
wrapped value and the sink's width, fill unit and adjustment state — two
consumptions of `wrap v` on sinks agreeing on those emit byte-identical
output, whatever was previously written to either sink. -/
theorem c8_deterministic (v : Value) (s t : OStream)
    (hw : s.width = t.width) (hf : s.fill = t.fill) (ha : s.adjustLeft = t.adjustLeft) :
    (consume s (wrap v)).out.drop s.out.length
      = (consume t (wrap v)).out.drop t.out.length := by
  rw [consume_out_eq, consume_out_eq, hw, hf, ha, List.drop_left, List.drop_left]

theorem c8_deterministic_witness :
    ((⟨"A".data, 7, '.', false⟩ : OStream).width = (⟨[], 7, '.', false⟩ : OStream).width
      ∧ (⟨"A".data, 7, '.', false⟩ : OStream).fill = (⟨[], 7, '.', false⟩ : OStream).fill)
    ∧ (consume ⟨"A".data, 7, '.', false⟩ (wrap (Value.vchar 'q'))).out.drop "A".data.length
        = (consume ⟨[], 7, '.', false⟩ (wrap (Value.vchar 'q'))).out.drop
            ([] : List Char).length := by
  exact ⟨⟨rfl, rfl⟩,
    c8_deterministic (Value.vchar 'q') ⟨"A".data, 7, '.', false⟩ ⟨[], 7, '.', false⟩
      rfl rfl rfl⟩

/-- C9: when the pending width `w` is negative (streamsize is signed), the
guard compares `static_cast<size_t>(w)`, i.e. `w` reduced modulo `2 ^ 64`,
against the text length: for every negative `w` in the streamsize range and
every text shorter than `2 ^ 64 + w`, the comparison `n < toSize w` holds —
exactly the condition under which `consume` selects the padding branch —
and the subsequent `left = (w + n) / 2` computation is then carried out on
the two's-complement image `(w + 2 ^ 64)` of the negative signed value, in
unsigned modulo-`2 ^ 64` arithmetic. -/
theorem c9_negative_width_padding_branch (c : center_helper) (s : OStream)
    (hneg : s.width < 0) (hrange : -(2 ^ 63) ≤ s.width)
    (hlen : (c.str_.length : Int) < 2 ^ 64 + s.width) :
    c.str_.length < toSize s.width
      ∧ toSize s.width = (s.width + 2 ^ 64).toNat
      ∧ leftOf s.width c.str_.length
          = toStreamsize (((s.width + 2 ^ 64).toNat + c.str_.length) % 2 ^ 64 / 2) := by
  have ht : toSize s.width = (s.width + 2 ^ 64).toNat := by unfold toSize; omega
  refine ⟨by omega, ht, ?_⟩
  rw [leftOf, ht]

theorem c9_negative_width_padding_branch_witness :
    ((⟨[], -5, ' ', false⟩ : OStream).width < 0
      ∧ -(2 ^ 63) ≤ (⟨[], -5, ' ', false⟩ : OStream).width
      ∧ (((center_helper.mk []).str_.length : Int)
          < 2 ^ 64 + (⟨[], -5, ' ', false⟩ : OStream).width))
    ∧ (center_helper.mk []).str_.length < toSize (⟨[], -5, ' ', false⟩ : OStream).width := by
  refine ⟨⟨by decide, by decide, by decide⟩, ?_⟩
  exact (c9_negative_width_padding_branch ⟨[]⟩ ⟨[], -5, ' ', false⟩
    (by decide) (by decide) (by decide)).1

/-- C10: frame property — consuming a `center_helper` only appends to the
stream's written character sequence (and resets the pending width); the
fill character and the adjustment/justification flag are identical before
and after, for every value and every width. -/
theorem c10_frame_fill_flags (s : OStream) (c : center_helper) :
    (consume s c).fill = s.fill
      ∧ (consume s c).adjustLeft = s.adjustLeft
      ∧ ∃ em : List Char, (consume s c).out = s.out ++ em :=
  ⟨consume_fill s c, consume_adjustLeft s c,
    emitOf c s.width s.fill s.adjustLeft, consume_out_eq s c⟩
